import Mathlib

/-!
Shallow embedding of the threat-intelligence core of the `threatsynth` repository:
the normaliser (`severityFromCvss`), the deduplicating store writer (`upsertThreat`),
the ingest-all fan-out, the asset/threat correlator, the priority scorer, and the
briefing-generation loop of `src/api/src/routes/{threats,briefings}.ts`.
Numbers are modelled as rationals; JS truthiness (`null`, `0`, `""` falsy) is made
explicit via the `js*` helpers.
-/

namespace ThreatSynth

/-- JS truthiness of an optional string field: null and the empty string are falsy. -/
def truthyS (o : Option String) : Bool :=
  match o with
  | none => false
  | some s => !s.isEmpty

/-- JS `x || d` for an optional numeric field: null and 0 fall back to the default. -/
def jsOrQ (o : Option ℚ) (d : ℚ) : ℚ :=
  match o with
  | none => d
  | some q => if q = 0 then d else q

/-- JS `x || null` normalisation of an optional string: the empty string becomes null. -/
def jsStrOrNull (o : Option String) : Option String :=
  match o with
  | none => none
  | some s => if s.isEmpty then none else some s

/-- JS `x || null` for an optional number: 0 becomes null. -/
def jsQOrNull (o : Option ℚ) : Option ℚ :=
  match o with
  | none => none
  | some q => if q = 0 then none else some q

/-- JS `x || null` for an optional numeric id: 0 becomes null. -/
def jsNatOrNull (o : Option Nat) : Option Nat :=
  match o with
  | none => none
  | some n => if n = 0 then none else some n

/-- JS `Math.round`: round half toward positive infinity. -/
def jsRound (q : ℚ) : ℤ := ⌊q + 1/2⌋

/-- one-decimal rounding `Math.round(x * 10) / 10` as applied when storing scores. -/
def roundTo1 (q : ℚ) : ℚ := (jsRound (q * 10) : ℚ) / 10

/-- JS `hay.includes(needle)`: substring containment test. -/
def jsIncludes (hay needle : String) : Bool :=
  (List.range (hay.data.length + 1)).any fun i => needle.data.isPrefixOf (hay.data.drop i)

/-- JS `toLowerCase()` over the character list (ASCII case mapping). -/
def lowerStr (s : String) : String := String.mk (s.data.map Char.toLower)

/-- severity derived from a CVSS score (`severityFromCvss` in `threats.ts`); the JS
guard `if (!score)` treats an absent score and a zero score alike. -/
def severityFromCvss (score : Option ℚ) : String :=
  match score with
  | none => "medium"
  | some s =>
    if s = 0 then "medium"
    else if s ≥ 9 then "critical"
    else if s ≥ 7 then "high"
    else if s ≥ 4 then "medium"
    else "low"

/-- a persisted row of the `threats` table. -/
structure ThreatRow where
  id : Nat
  source : String
  source_id : String
  title : String
  description : Option String
  severity : String
  cvss_score : Option ℚ
  affected_vendor : Option String
  affected_product : Option String
  affected_version : Option String
  exploits_available : Bool
  actively_exploited : Bool
  published_date : Option String
  deriving DecidableEq

/-- the candidate record passed to `upsertThreat` by the source adapters. -/
structure ThreatCandidate where
  source : String
  source_id : String
  title : String
  description : Option String
  severity : String
  cvss_score : Option ℚ
  affected_vendor : Option String
  affected_product : Option String
  affected_version : Option String
  exploits_available : Option Bool
  actively_exploited : Option Bool
  published_date : Option String
  deriving DecidableEq

/-- the dedup existence check `SELECT id FROM threats WHERE source = ? AND source_id = ?`. -/
def hasThreatKey (rows : List ThreatRow) (source source_id : String) : Bool :=
  rows.any fun r => r.source == source && r.source_id == source_id

/-- the row built by the INSERT in `upsertThreat`: optional fields fall back to null via
JS `||`, optional booleans are stored as 0/1 via `? 1 : 0`. -/
def insertRow (rows : List ThreatRow) (t : ThreatCandidate) : ThreatRow :=
  { id := rows.length + 1
    source := t.source
    source_id := t.source_id
    title := t.title
    description := jsStrOrNull t.description
    severity := t.severity
    cvss_score := jsQOrNull t.cvss_score
    affected_vendor := jsStrOrNull t.affected_vendor
    affected_product := jsStrOrNull t.affected_product
    affected_version := jsStrOrNull t.affected_version
    exploits_available := t.exploits_available.getD false
    actively_exploited := t.actively_exploited.getD false
    published_date := jsStrOrNull t.published_date }

/-- `upsertThreat`: check-then-insert dedup keyed on (source, source_id). -/
def upsertThreat (rows : List ThreatRow) (t : ThreatCandidate) : Bool × List ThreatRow :=
  if hasThreatKey rows t.source t.source_id then (false, rows)
  else (true, rows ++ [insertRow rows t])

/-- one adapter run: upsert each candidate in order, counting newly inserted rows
(the `if (inserted) count++` loop shared by every adapter). -/
def ingestRun : List ThreatRow → List ThreatCandidate → Nat × List ThreatRow
  | rows, [] => (0, rows)
  | rows, c :: cs =>
    let step := upsertThreat rows c
    let rest := ingestRun step.2 cs
    ((if step.1 then 1 else 0) + rest.1, rest.2)

/-- the fixed source list of the `POST /ingest` fan-out. -/
def ingestAllSources : List String := ["nvd", "cisa_kev", "exploitdb", "github", "shodan", "greynoise"]

/-- per-source outcome handling of the fan-out: a caught adapter failure reports 0. -/
def sourceCount (o : Except String Nat) : Nat :=
  match o with
  | .ok n => n
  | .error _ => 0

/-- `POST /ingest`: run every adapter independently, catching failures per source. -/
def ingestAll (outcome : String → Except String Nat) : List (String × Nat) :=
  ingestAllSources.map fun src => (src, sourceCount (outcome src))

/-- a persisted row of the `assets` table (fields the core reads). -/
structure Asset where
  id : Nat
  name : String
  vendor : Option String
  product : Option String
  version : Option String
  deriving DecidableEq

/-- the correlator predicate of `briefings.ts`: asset field case-insensitively contains
the threat field as a substring, guarded by JS truthiness of each field. -/
def matchesThreat (a : Asset) (t : ThreatRow) : Bool :=
  if !truthyS a.vendor && !truthyS a.product then false
  else
    (truthyS a.vendor && truthyS t.affected_vendor &&
      jsIncludes (lowerStr (a.vendor.getD "")) (lowerStr (t.affected_vendor.getD "")))
    || (truthyS a.product && truthyS t.affected_product &&
      jsIncludes (lowerStr (a.product.getD "")) (lowerStr (t.affected_product.getD "")))

/-- the per-asset selection `matching.length > 0 ? matching.slice(0, 3) : threats.results.slice(0, 2)`. -/
def selectThreats (a : Asset) (pool : List ThreatRow) : List ThreatRow :=
  let matching := pool.filter (matchesThreat a)
  if matching.length > 0 then matching.take 3 else pool.take 2

/-- the additive priority formula of `briefings.ts` before rounding. -/
def priorityRaw (t : ThreatRow) (matched : Bool) : ℚ :=
  let cvssWeight := jsOrQ t.cvss_score 5 / 10
  let exploitWeight : ℚ := if t.exploits_available then 0.2 else 0
  let activeWeight : ℚ := if t.actively_exploited then 0.3 else 0
  let matchWeight : ℚ := if matched then 0.2 else 0
  min 10 ((cvssWeight + exploitWeight + activeWeight + matchWeight) * 10)

/-- the priority score as persisted: `Math.round(priority * 10) / 10`. -/
def priorityStored (t : ThreatRow) (matched : Bool) : ℚ := roundTo1 (priorityRaw t matched)

/-- a persisted row of the `briefings` table (fields the core writes). -/
structure Briefing where
  threat_id : Nat
  asset_id : Nat
  summary : String
  remediation : String
  business_impact : String
  priority_score : ℚ
  user_id : Option Nat
  deriving DecidableEq

/-- index of the first occurrence of `needle` in `hay`, if any. -/
def findSub (hay needle : List Char) : Option Nat :=
  (List.range (hay.length + 1)).find? fun i => needle.isPrefixOf (hay.drop i)

/-- one labelled section of the model response, as extracted by the regexes
`LABEL:\s*([\s\S]*?)(?=NEXT:|$)/i` followed by `.trim()`: text after the first
case-insensitive occurrence of the label, up to the next label or end of text. -/
def matchSection (text label : String) (endLabel : Option String) : Option String :=
  match findSub (lowerStr text).data (lowerStr label).data with
  | none => none
  | some i =>
    let body := (text.data.drop (i + label.length)).dropWhile Char.isWhitespace
    let seg :=
      match endLabel with
      | none => body
      | some e =>
        match findSub (lowerStr (String.mk body)).data (lowerStr e).data with
        | none => body
        | some j => body.take j
    some (String.mk seg).trim

/-- section extraction of `briefings.ts`: a missing or empty SUMMARY section falls back
to the first 200 characters of the raw text; missing REMEDIATION/IMPACT become empty. -/
def parseResponse (text : String) : String × String × String :=
  let summary :=
    match matchSection text "SUMMARY:" (some "REMEDIATION:") with
    | some v => if v.isEmpty then text.take 200 else v
    | none => text.take 200
  let remediation := (matchSection text "REMEDIATION:" (some "IMPACT:")).getD ""
  let impact := (matchSection text "IMPACT:" none).getD ""
  (summary, remediation, impact)

/-- rendering of `t.cvss_score || 'N/A'` inside the fallback templates. -/
def cvssText (c : Option ℚ) : String :=
  match c with
  | none => "N/A"
  | some q => if q = 0 then "N/A" else toString q

/-- the deterministic catch-branch templates built purely from local threat/asset fields. -/
def genFallback (t : ThreatRow) (a : Asset) : String × String × String :=
  (t.source_id ++ " (" ++ t.severity ++ ") affects " ++ a.name ++ ". CVSS " ++
      cvssText t.cvss_score ++ "." ++
      (if t.actively_exploited then " Actively exploited in the wild." else ""),
   "1. Review " ++ a.name ++ " for exposure to " ++ t.source_id ++
      "\n2. Apply vendor patches immediately\n3. Monitor for indicators of compromise",
   "Potential " ++ t.severity ++ "-severity impact on " ++ a.name ++ " infrastructure.")

/-- the briefing dedup existence check `SELECT id FROM briefings WHERE threat_id = ? AND asset_id = ?`. -/
def hasPairB (bs : List Briefing) (tid aid : Nat) : Bool :=
  bs.any fun b => b.threat_id == tid && b.asset_id == aid

/-- the briefing row inserted for one (threat, asset) pair: content from the external
generator when the call succeeds, deterministic fallback content when it fails. -/
def mkBriefing (gen : ThreatRow → Asset → Except Unit String) (uid : Option Nat)
    (a : Asset) (matching : List ThreatRow) (t : ThreatRow) : Briefing :=
  let content :=
    match gen t a with
    | .ok text => parseResponse text
    | .error _ => genFallback t a
  { threat_id := t.id
    asset_id := a.id
    summary := content.1
    remediation := content.2.1
    business_impact := content.2.2
    priority_score := priorityStored t (decide (t ∈ matching))
    user_id := jsNatOrNull uid }

/-- the body of the inner loop of `POST /generate`: skip an already-briefed pair,
otherwise insert a briefing and bump the generated count. -/
def processPair (gen : ThreatRow → Asset → Except Unit String) (uid : Option Nat)
    (a : Asset) (matching : List ThreatRow) (st : List Briefing × Nat) (t : ThreatRow) :
    List Briefing × Nat :=
  if hasPairB st.1 t.id a.id then st
  else (st.1 ++ [mkBriefing gen uid a matching t], st.2 + 1)

/-- the inner loop over the selected threats of one asset. -/
def processThreats (gen : ThreatRow → Asset → Except Unit String) (uid : Option Nat)
    (a : Asset) (matching : List ThreatRow) :
    List ThreatRow → List Briefing × Nat → List Briefing × Nat
  | [], st => st
  | t :: ts, st => processThreats gen uid a matching ts (processPair gen uid a matching st t)

/-- one asset of the outer loop: correlate, select, then process each selected threat. -/
def processAsset (gen : ThreatRow → Asset → Except Unit String) (uid : Option Nat)
    (pool : List ThreatRow) (st : List Briefing × Nat) (a : Asset) : List Briefing × Nat :=
  let matching := pool.filter (matchesThreat a)
  let toProcess := if matching.length > 0 then matching.take 3 else pool.take 2
  processThreats gen uid a matching toProcess st

/-- the outer loop of `POST /generate` over the caller's assets. -/
def processAssets (gen : ThreatRow → Asset → Except Unit String) (uid : Option Nat)
    (pool : List ThreatRow) : List Asset → List Briefing × Nat → List Briefing × Nat
  | [], st => st
  | a :: rest, st => processAssets gen uid pool rest (processAsset gen uid pool st a)

/-- the whole generation batch: starts with the caller's briefing store and a zero
generated count, returns the final store and the count. -/
def runGenerate (gen : ThreatRow → Asset → Except Unit String) (uid : Option Nat)
    (assets : List Asset) (pool : List ThreatRow) (bs : List Briefing) :
    List Briefing × Nat :=
  processAssets gen uid pool assets (bs, 0)

/-- claim-side restatement of the priority formula, written as the spec phrases it:
min(10, ((cvss_score or 5)/10 + 0.2 if exploits + 0.3 if actively exploited + 0.2 if
matched) * 10), rounded to one decimal place; compared against `priorityStored`. -/
def specPriorityFormula (t : ThreatRow) (matched : Bool) : ℚ :=
  roundTo1 (min 10 ((jsOrQ t.cvss_score 5 / 10
    + (if t.exploits_available then 0.2 else 0)
    + (if t.actively_exploited then 0.3 else 0)
    + (if matched then 0.2 else 0)) * 10))

/-- sample threat for the priority scenario: cvss 9.8, exploits available, actively exploited. -/
def threatHot : ThreatRow :=
  { id := 1, source := "nvd", source_id := "CVE-2024-0001", title := "x", description := none
    severity := "critical", cvss_score := some 9.8, affected_vendor := none
    affected_product := none, affected_version := none, exploits_available := true
    actively_exploited := true, published_date := none }

/-- sample threat for the priority scenario: no score, no exploitation flags. -/
def threatPlain : ThreatRow :=
  { id := 2, source := "nvd", source_id := "CVE-2024-0002", title := "y", description := none
    severity := "high", cvss_score := none, affected_vendor := none
    affected_product := none, affected_version := none, exploits_available := false
    actively_exploited := false, published_date := none }

/-- sample threat with a zero CVSS score. -/
def threatZero : ThreatRow := { threatPlain with id := 3, source_id := "CVE-2024-0003", cvss_score := some 0 }

/-- the dedup key of a threat row. -/
def threatKey (r : ThreatRow) : String × String := (r.source, r.source_id)

/-- no two rows share a (source, source_id) pair. -/
def threatKeysNodup (rows : List ThreatRow) : Prop := (rows.map threatKey).Nodup

/-- the (threat_id, asset_id) pair of a briefing row. -/
def briefPair (b : Briefing) : Nat × Nat := (b.threat_id, b.asset_id)

/-- no two briefing rows share a (threat_id, asset_id) pair. -/
def briefPairsNodup (bs : List Briefing) : Prop := (bs.map briefPair).Nodup

/-- the generation-independent projection of a briefing row: which pair it covers and
at what priority. -/
def briefKey (b : Briefing) : Nat × Nat × ℚ := (b.threat_id, b.asset_id, b.priority_score)

/-- a text generator that always fails, standing for an unreachable provider. -/
def genErr : ThreatRow → Asset → Except Unit String := fun _ _ => .error ()

/-- a per-source outcome map where only the nvd adapter fails. -/
def failNvd : String → Except String Nat :=
  fun src => if src = "nvd" then .error "boom" else .ok 7

/-- sample asset whose vendor contains "apache" as a substring. -/
def assetApache : Asset :=
  { id := 1, name := "web01", vendor := some "Apache Software Foundation"
    product := none, version := none }

/-- sample asset with the short vendor string, for the asymmetry of the containment. -/
def assetShort : Asset :=
  { id := 2, name := "web02", vendor := some "apache", product := none, version := none }

/-- sample asset with neither vendor nor product set. -/
def assetBare : Asset :=
  { id := 3, name := "bare01", vendor := none, product := none, version := none }

/-- sample asset for the no-match fallback scenario. -/
def assetAcme : Asset :=
  { id := 4, name := "acme01", vendor := some "Acme", product := none, version := none }

/-- sample threat whose affected vendor is the short string "apache". -/
def threatApacheVendor : ThreatRow :=
  { id := 4, source := "cisa_kev", source_id := "CVE-2024-0004", title := "a", description := none
    severity := "high", cvss_score := none, affected_vendor := some "apache"
    affected_product := none, affected_version := none, exploits_available := true
    actively_exploited := true, published_date := none }

/-- sample threat whose affected vendor is the long string, for the asymmetry check. -/
def threatLongVendor : ThreatRow :=
  { threatApacheVendor with
    id := 5
    source_id := "CVE-2024-0005"
    affected_vendor := some "Apache Software Foundation" }

/-- sample threats unrelated to Acme, forming the fallback pool. -/
def threatOther1 : ThreatRow :=
  { threatApacheVendor with id := 6, source_id := "CVE-2024-0006", affected_vendor := some "microsoft" }

/-- second sample threat unrelated to Acme. -/
def threatOther2 : ThreatRow :=
  { threatApacheVendor with id := 7, source_id := "CVE-2024-0007", affected_vendor := some "oracle" }

/-- third sample threat unrelated to Acme. -/
def threatOther3 : ThreatRow :=
  { threatApacheVendor with id := 8, source_id := "CVE-2024-0008", affected_vendor := some "cisco" }

/-- sample candidate whose (source, source_id) key coincides with `threatHot`. -/
def candNvd : ThreatCandidate :=
  { source := "nvd", source_id := "CVE-2024-0001", title := "x", description := none
    severity := "critical", cvss_score := none, affected_vendor := none
    affected_product := none, affected_version := none, exploits_available := some true
    actively_exploited := some true, published_date := none }

/-- sample briefing row already covering the (threatApacheVendor, assetApache) pair. -/
def briefingExisting : Briefing :=
  { threat_id := 4, asset_id := 1, summary := "s", remediation := "r"
    business_impact := "b", priority_score := 5, user_id := none }

/-- C1: `severityFromCvss` implements the spec thresholding exactly: an absent or zero
score yields medium, a score ≥ 9 critical, ≥ 7 (and < 9) high, ≥ 4 (and < 7) medium,
any other score low; threshold-exact sample values: 9 → critical, 8.99 → high,
7 → high, 6.99 → medium, 4 → medium, 3.99 → low. -/
theorem severity_from_score_spec :
    severityFromCvss none = "medium" ∧
    severityFromCvss (some 0) = "medium" ∧
    (∀ s : ℚ, 9 ≤ s → severityFromCvss (some s) = "critical") ∧
    (∀ s : ℚ, 7 ≤ s → s < 9 → severityFromCvss (some s) = "high") ∧
    (∀ s : ℚ, 4 ≤ s → s < 7 → severityFromCvss (some s) = "medium") ∧
    (∀ s : ℚ, s ≠ 0 → s < 4 → severityFromCvss (some s) = "low") ∧
    severityFromCvss (some 9) = "critical" ∧
    severityFromCvss (some 8.99) = "high" ∧
    severityFromCvss (some 7) = "high" ∧
    severityFromCvss (some 6.99) = "medium" ∧
    severityFromCvss (some 4) = "medium" ∧
    severityFromCvss (some 3.99) = "low" := by
  refine ⟨rfl, by norm_num [severityFromCvss], ?_, ?_, ?_, ?_,
    by norm_num [severityFromCvss], by norm_num [severityFromCvss],
    by norm_num [severityFromCvss], by norm_num [severityFromCvss],
    by norm_num [severityFromCvss], by norm_num [severityFromCvss]⟩
  · intro s hs
    simp only [severityFromCvss]
    split_ifs with h1 h2 h3 h4 <;> first | rfl | (exfalso; linarith)
  · intro s hs hs'
    simp only [severityFromCvss]
    split_ifs with h1 h2 h3 h4 <;> first | rfl | (exfalso; linarith)
  · intro s hs hs'
    simp only [severityFromCvss]
    split_ifs with h1 h2 h3 h4 <;> first | rfl | (exfalso; linarith)
  · intro s hne hs
    simp only [severityFromCvss]
    split_ifs with h1 h2 h3 h4 <;>
      first | rfl | (exfalso; first | exact hne h1 | linarith)

/-- witness for C1, at the concrete score 8. -/
theorem severity_from_score_spec_witness :
    severityFromCvss (some 8) = "high" :=
  severity_from_score_spec.2.2.2.1 8 (by norm_num) (by norm_num)

/-- C3: the persisted priority score equals the spec formula
min(10, ((cvss or 5)/10 + 0.2·exploits + 0.3·active + 0.2·matched)·10) rounded to one
decimal; the scenario 9.8/true/true/true gives exactly 10 and null/false/false/false
gives exactly 5. -/
theorem priority_formula_spec :
    (∀ (t : ThreatRow) (matched : Bool),
      priorityStored t matched = specPriorityFormula t matched) ∧
    priorityStored threatHot true = 10 ∧
    priorityStored threatPlain false = 5 := by
  refine ⟨fun t m => rfl, ?_, ?_⟩
  · norm_num [priorityStored, priorityRaw, roundTo1, jsRound, jsOrQ, threatHot]
  · norm_num [priorityStored, priorityRaw, roundTo1, jsRound, jsOrQ, threatPlain]

/-- C4: for an absent score or a valid CVSS score in [0, 10], and either match flag,
the stored priority lies in [0, 10] and is an exact number of tenths. -/
theorem priority_bounds_spec :
    ∀ (t : ThreatRow) (matched : Bool),
      (t.cvss_score = none ∨ ∃ q, t.cvss_score = some q ∧ 0 ≤ q ∧ q ≤ 10) →
      0 ≤ priorityStored t matched ∧ priorityStored t matched ≤ 10 ∧
      ∃ k : ℤ, priorityStored t matched = (k : ℚ) / 10 := by
  intro t matched h
  have hw : (0:ℚ) ≤ jsOrQ t.cvss_score 5 := by
    rcases h with h | ⟨q, hq, h0, _⟩
    · simp [jsOrQ, h]
    · simp only [jsOrQ, hq]
      split_ifs <;> linarith
  have hdiv : (0:ℚ) ≤ jsOrQ t.cvss_score 5 / 10 := div_nonneg hw (by norm_num)
  have h1 : (0:ℚ) ≤ (if t.exploits_available then (0.2:ℚ) else 0) := by split <;> norm_num
  have h2 : (0:ℚ) ≤ (if t.actively_exploited then (0.3:ℚ) else 0) := by split <;> norm_num
  have h3 : (0:ℚ) ≤ (if matched then (0.2:ℚ) else 0) := by split <;> norm_num
  have hraw0 : 0 ≤ priorityRaw t matched := by
    simp only [priorityRaw]
    exact le_min (by norm_num) (by nlinarith)
  have hraw10 : priorityRaw t matched ≤ 10 := by
    simp only [priorityRaw]
    exact min_le_left _ _
  have hstored : priorityStored t matched = (jsRound (priorityRaw t matched * 10) : ℚ) / 10 := rfl
  have hfl0 : (0:ℤ) ≤ jsRound (priorityRaw t matched * 10) := by
    unfold jsRound
    exact Int.le_floor.mpr (by push_cast; linarith)
  have hfl100 : jsRound (priorityRaw t matched * 10) ≤ 100 := by
    unfold jsRound
    have h101 : ⌊priorityRaw t matched * 10 + 1/2⌋ < 101 :=
      Int.floor_lt.mpr (by push_cast; linarith)
    omega
  refine ⟨?_, ?_, ⟨jsRound (priorityRaw t matched * 10), hstored⟩⟩
  · rw [hstored]
    apply div_nonneg _ (by norm_num)
    exact_mod_cast hfl0
  · rw [hstored, div_le_iff (by norm_num : (0:ℚ) < 10)]
    have : ((jsRound (priorityRaw t matched * 10) : ℚ)) ≤ 100 := by exact_mod_cast hfl100
    linarith

/-- witness for C4 at a threat with no CVSS score. -/
theorem priority_bounds_spec_witness :
    0 ≤ priorityStored threatPlain false ∧ priorityStored threatPlain false ≤ 10 ∧
    ∃ k : ℤ, priorityStored threatPlain false = (k : ℚ) / 10 :=
  priority_bounds_spec threatPlain false (Or.inl rfl)

/-- C10: a CVSS score of exactly 0 is treated as absent everywhere: upsert stores the
column as null (the whole upsert result coincides with that of a score-free candidate)
and the priority scorer gives base weight 0.5, exactly as for a missing score. -/
theorem zero_cvss_as_absent_spec :
    (∀ (rows : List ThreatRow) (t : ThreatCandidate),
      upsertThreat rows { t with cvss_score := some 0 }
        = upsertThreat rows { t with cvss_score := none }) ∧
    (∀ (rows : List ThreatRow) (t : ThreatCandidate),
      (insertRow rows { t with cvss_score := some 0 }).cvss_score = none) ∧
    (∀ (t : ThreatRow) (matched : Bool), t.cvss_score = some 0 →
      priorityRaw t matched = priorityRaw { t with cvss_score := none } matched ∧
      jsOrQ t.cvss_score 5 / 10 = 1/2) := by
  refine ⟨?_, ?_, ?_⟩
  · intro rows t
    simp [upsertThreat, hasThreatKey, insertRow, jsQOrNull]
  · intro rows t
    simp [insertRow, jsQOrNull]
  · intro t m h
    constructor
    · simp [priorityRaw, jsOrQ, h]
    · rw [h]
      norm_num [jsOrQ]

/-- witness for C10 at the sample zero-score threat. -/
theorem zero_cvss_as_absent_spec_witness :
    priorityRaw threatZero false = priorityRaw { threatZero with cvss_score := none } false ∧
    jsOrQ threatZero.cvss_score 5 / 10 = 1/2 :=
  zero_cvss_as_absent_spec.2.2 threatZero false rfl

/-- C5: the correlator reports a match exactly when the asset has vendor or product set
and the lower-cased asset field contains the lower-cased threat field as a substring;
containment is asymmetric (asset contains threat); the Apache sample matches, the
reversed pair does not, and an asset with neither field set matches no threat. -/
theorem correlation_match_spec :
    (∀ (a : Asset) (t : ThreatRow),
      matchesThreat a t = true ↔
        ((truthyS a.vendor = true ∨ truthyS a.product = true) ∧
         ((truthyS a.vendor = true ∧ truthyS t.affected_vendor = true ∧
             jsIncludes (lowerStr (a.vendor.getD "")) (lowerStr (t.affected_vendor.getD "")) = true) ∨
          (truthyS a.product = true ∧ truthyS t.affected_product = true ∧
             jsIncludes (lowerStr (a.product.getD "")) (lowerStr (t.affected_product.getD "")) = true)))) ∧
    matchesThreat assetApache threatApacheVendor = true ∧
    matchesThreat assetShort threatLongVendor = false ∧
    (∀ t : ThreatRow, matchesThreat assetBare t = false) := by
  refine ⟨?_, by decide, by decide, ?_⟩
  · intro a t
    cases hv : truthyS a.vendor <;> cases hp : truthyS a.product <;>
      simp [matchesThreat, hv, hp]
  · intro t
    simp [matchesThreat, assetBare, truthyS]

/-- C6: per-asset selection takes the first up-to-3 matching threats in pool order, and
falls back to the first 2 threats of the whole pool when there is no match. -/
theorem selection_policy_spec :
    ∀ (a : Asset) (pool : List ThreatRow),
      (pool.filter (matchesThreat a) ≠ [] →
        selectThreats a pool = (pool.filter (matchesThreat a)).take 3 ∧
        (selectThreats a pool).length = min 3 (pool.filter (matchesThreat a)).length) ∧
      (pool.filter (matchesThreat a) = [] →
        selectThreats a pool = pool.take 2) := by
  intro a pool
  constructor
  · intro h
    have hlen : 0 < (pool.filter (matchesThreat a)).length := List.length_pos.mpr h
    constructor
    · simp [selectThreats, hlen]
    · simp [selectThreats, hlen, List.length_take]
  · intro h
    simp [selectThreats, h]

/-- witness for C6: the Acme asset against a pool with no match receives exactly the
first 2 pool entries. -/
theorem selection_policy_spec_witness :
    selectThreats assetAcme [threatOther1, threatOther2, threatOther3]
      = [threatOther1, threatOther2] :=
  (selection_policy_spec assetAcme [threatOther1, threatOther2, threatOther3]).2 (by decide)

/-- lookup computation of the ingest-all result map. -/
theorem ingestAll_lookup (outcome : String → Except String Nat) :
    ∀ src ∈ ingestAllSources,
      (ingestAll outcome).lookup src = some (sourceCount (outcome src)) := by
  intro src h
  fin_cases h <;> simp [ingestAll, ingestAllSources, List.lookup]

/-- C7: the ingest-all fan-out is total over the fixed six sources: the result map covers
exactly those sources in order, a failing source reports 0, a succeeding source reports
its real count, and each source's entry depends only on that source's own outcome. -/
theorem ingest_all_spec :
    ∀ outcome : String → Except String Nat,
      (ingestAll outcome).map Prod.fst = ingestAllSources ∧
      (∀ src ∈ ingestAllSources,
        (ingestAll outcome).lookup src = some (sourceCount (outcome src))) ∧
      (∀ (outcome₂ : String → Except String Nat) (src : String), src ∈ ingestAllSources →
        outcome src = outcome₂ src →
        (ingestAll outcome).lookup src = (ingestAll outcome₂).lookup src) := by
  intro outcome
  refine ⟨by simp [ingestAll, ingestAllSources], ingestAll_lookup outcome, ?_⟩
  intro o2 src h he
  rw [ingestAll_lookup outcome src h, ingestAll_lookup o2 src h, he]

/-- witness for C7: with only the nvd adapter failing, nvd reports 0 and github its real count. -/
theorem ingest_all_spec_witness :
    (ingestAll failNvd).lookup "nvd" = some 0 ∧
    (ingestAll failNvd).lookup "github" = some 7 := by
  constructor
  · have h := (ingest_all_spec failNvd).2.1 "nvd" (by simp [ingestAllSources])
    simpa [failNvd, sourceCount] using h
  · have h := (ingest_all_spec failNvd).2.1 "github" (by simp [ingestAllSources])
    simpa [failNvd, sourceCount] using h

/-- the dedup check succeeds exactly when the key occurs among the rows' keys. -/
theorem hasThreatKey_iff (rows : List ThreatRow) (s i : String) :
    hasThreatKey rows s i = true ↔ (s, i) ∈ rows.map threatKey := by
  simp only [hasThreatKey, List.any_eq_true, Bool.and_eq_true, beq_iff_eq, List.mem_map,
    threatKey, Prod.mk.injEq]

/-- after an upsert the candidate's key is present. -/
theorem upsert_key_present (rows : List ThreatRow) (c : ThreatCandidate) :
    hasThreatKey (upsertThreat rows c).2 c.source c.source_id = true := by
  unfold upsertThreat
  split_ifs with h
  · simpa using h
  · simp [hasThreatKey, insertRow, List.any_append]

/-- upsert never removes a key. -/
theorem upsert_mono_key {rows : List ThreatRow} {s i : String} (c : ThreatCandidate)
    (h : hasThreatKey rows s i = true) :
    hasThreatKey (upsertThreat rows c).2 s i = true := by
  unfold upsertThreat
  split_ifs with hc
  · simpa using h
  · simp only [hasThreatKey] at h
    simp [hasThreatKey, List.any_append, h]

/-- an ingest run never removes a key. -/
theorem ingestRun_mono_key (cs : List ThreatCandidate) :
    ∀ (rows : List ThreatRow) {s i : String}, hasThreatKey rows s i = true →
      hasThreatKey (ingestRun rows cs).2 s i = true := by
  induction cs with
  | nil => intro rows s i h; simpa [ingestRun] using h
  | cons c cs ih =>
    intro rows s i h
    simp only [ingestRun]
    exact ih _ (upsert_mono_key c h)

/-- after an ingest run every processed candidate's key is present. -/
theorem ingestRun_covers (cs : List ThreatCandidate) :
    ∀ (rows : List ThreatRow), ∀ c ∈ cs,
      hasThreatKey (ingestRun rows cs).2 c.source c.source_id = true := by
  induction cs with
  | nil => intro rows c hc; simp at hc
  | cons d ds ih =>
    intro rows c hc
    rcases List.mem_cons.mp hc with h | h
    · subst h
      simp only [ingestRun]
      exact ingestRun_mono_key ds _ (upsert_key_present rows c)
    · simp only [ingestRun]
      exact ih _ c h

/-- an ingest run whose candidates' keys are all present inserts nothing and changes nothing. -/
theorem ingestRun_noop (cs : List ThreatCandidate) :
    ∀ (rows : List ThreatRow),
      (∀ c ∈ cs, hasThreatKey rows c.source c.source_id = true) →
      ingestRun rows cs = (0, rows) := by
  induction cs with
  | nil => intro rows _; rfl
  | cons d ds ih =>
    intro rows h
    have hd : hasThreatKey rows d.source d.source_id = true := h d (by simp)
    have hup : upsertThreat rows d = (false, rows) := by simp [upsertThreat, hd]
    have hrest := ih rows (fun c hc => h c (List.mem_cons_of_mem _ hc))
    simp [ingestRun, hup, hrest]

/-- upsert preserves uniqueness of (source, source_id) keys. -/
theorem upsert_keysNodup {rows : List ThreatRow} (c : ThreatCandidate)
    (h : threatKeysNodup rows) : threatKeysNodup (upsertThreat rows c).2 := by
  unfold upsertThreat
  split_ifs with hc
  · simpa using h
  · have hnotin : (c.source, c.source_id) ∉ rows.map threatKey := by
      intro hmem
      exact hc ((hasThreatKey_iff rows _ _).mpr hmem)
    simp only [threatKeysNodup, List.map_append, List.map_cons, List.map_nil]
    rw [List.nodup_append]
    refine ⟨h, by simp, ?_⟩
    intro x hx hx'
    simp only [insertRow, threatKey, List.mem_cons, List.not_mem_nil, or_false] at hx'
    subst hx'
    exact hnotin hx

/-- an ingest run preserves uniqueness of (source, source_id) keys. -/
theorem ingestRun_keysNodup (cs : List ThreatCandidate) :
    ∀ (rows : List ThreatRow), threatKeysNodup rows →
      threatKeysNodup (ingestRun rows cs).2 := by
  induction cs with
  | nil => intro rows h; simpa [ingestRun] using h
  | cons c cs ih =>
    intro rows h
    simp only [ingestRun]
    exact ih _ (upsert_keysNodup c h)

/-- C2: ingestion is idempotent over the (source, source_id) key: upsert of an existing
key returns inserted = false with the store untouched; re-running the same candidate
list inserts 0 rows and leaves the store unchanged; key uniqueness is preserved. -/
theorem ingest_idempotent_spec :
    (∀ (rows : List ThreatRow) (t : ThreatCandidate) (r : ThreatRow), r ∈ rows →
      r.source = t.source → r.source_id = t.source_id →
      upsertThreat rows t = (false, rows)) ∧
    (∀ (rows : List ThreatRow) (cands : List ThreatCandidate),
      ingestRun (ingestRun rows cands).2 cands = (0, (ingestRun rows cands).2)) ∧
    (∀ (rows : List ThreatRow) (cands : List ThreatCandidate),
      threatKeysNodup rows → threatKeysNodup (ingestRun rows cands).2) := by
  refine ⟨?_, ?_, ?_⟩
  · intro rows t r hr hs hi
    have hk : hasThreatKey rows t.source t.source_id = true := by
      apply (hasThreatKey_iff rows _ _).mpr
      exact List.mem_map.mpr ⟨r, hr, by simp [threatKey, hs, hi]⟩
    simp [upsertThreat, hk]
  · intro rows cands
    exact ingestRun_noop cands _ (fun c hc => ingestRun_covers cands rows c hc)
  · intro rows cands h
    exact ingestRun_keysNodup cands rows h

/-- witness for C2: upsert of a candidate whose key already exists is a no-op. -/
theorem ingest_idempotent_spec_witness :
    upsertThreat [threatHot] candNvd = (false, [threatHot]) :=
  ingest_idempotent_spec.1 [threatHot] candNvd threatHot (by simp) rfl rfl

/-- the briefing dedup check succeeds exactly when the pair occurs among the rows' pairs. -/
theorem hasPairB_iff (bs : List Briefing) (x y : Nat) :
    hasPairB bs x y = true ↔ (x, y) ∈ bs.map briefPair := by
  simp only [hasPairB, List.any_eq_true, Bool.and_eq_true, beq_iff_eq, List.mem_map,
    briefPair, Prod.mk.injEq]

/-- a pair already briefed is skipped without any change. -/
theorem processPair_skip (gen : ThreatRow → Asset → Except Unit String) (uid : Option Nat)
    (a : Asset) (m : List ThreatRow) (st : List Briefing × Nat) (t : ThreatRow)
    (h : hasPairB st.1 t.id a.id = true) :
    processPair gen uid a m st t = st := by
  simp [processPair, h]

/-- a pair not yet briefed is inserted and counted. -/
theorem processPair_insert (gen : ThreatRow → Asset → Except Unit String) (uid : Option Nat)
    (a : Asset) (m : List ThreatRow) (st : List Briefing × Nat) (t : ThreatRow)
    (h : hasPairB st.1 t.id a.id = false) :
    processPair gen uid a m st t = (st.1 ++ [mkBriefing gen uid a m t], st.2 + 1) := by
  simp [processPair, h]

/-- processing one pair never removes a stored briefing. -/
theorem processPair_mem_mono {gen : ThreatRow → Asset → Except Unit String} {uid : Option Nat}
    {a : Asset} {m : List ThreatRow} {st : List Briefing × Nat} {t : ThreatRow}
    {b : Briefing} (h : b ∈ st.1) : b ∈ (processPair gen uid a m st t).1 := by
  unfold processPair
  split_ifs <;> simp [h]

/-- processing one pair never removes a stored pair. -/
theorem processPair_hasPair_mono {gen : ThreatRow → Asset → Except Unit String}
    {uid : Option Nat} {a : Asset} {m : List ThreatRow} {st : List Briefing × Nat}
    {t : ThreatRow} {x y : Nat} (h : hasPairB st.1 x y = true) :
    hasPairB (processPair gen uid a m st t).1 x y = true := by
  unfold processPair
  split_ifs with hc
  · exact h
  · simp only [hasPairB] at h
    simp [hasPairB, List.any_append, h]

/-- after processing a pair, that pair is present. -/
theorem processPair_pair_present (gen : ThreatRow → Asset → Except Unit String)
    (uid : Option Nat) (a : Asset) (m : List ThreatRow) (st : List Briefing × Nat)
    (t : ThreatRow) : hasPairB (processPair gen uid a m st t).1 t.id a.id = true := by
  unfold processPair
  split_ifs with hc
  · exact hc
  · simp [hasPairB, List.any_append, mkBriefing]

/-- processing a threat with a different id, or for a different asset, keeps an absent
pair absent. -/
theorem processPair_absent_preserved (gen : ThreatRow → Asset → Except Unit String)
    (uid : Option Nat) (a : Asset) (m : List ThreatRow) (st : List Briefing × Nat)
    (t : ThreatRow) {x y : Nat} (hne : t.id ≠ x ∨ a.id ≠ y)
    (h : hasPairB st.1 x y = false) :
    hasPairB (processPair gen uid a m st t).1 x y = false := by
  unfold processPair
  split_ifs with hc
  · exact h
  · simp only [hasPairB, List.any_append, List.any_cons, List.any_nil, Bool.or_false,
      Bool.or_eq_false_iff] at h ⊢
    refine ⟨h, ?_⟩
    simp only [mkBriefing, Bool.and_eq_false_iff]
    rcases hne with hne | hne
    · exact Or.inl (by simpa using hne)
    · exact Or.inr (by simpa using hne)

/-- processing one pair preserves uniqueness of (threat_id, asset_id) pairs. -/
theorem processPair_pairsNodup {gen : ThreatRow → Asset → Except Unit String}
    {uid : Option Nat} {a : Asset} {m : List ThreatRow} {st : List Briefing × Nat}
    {t : ThreatRow} (h : briefPairsNodup st.1) :
    briefPairsNodup (processPair gen uid a m st t).1 := by
  unfold processPair
  split_ifs with hc
  · exact h
  · have hnotin : (t.id, a.id) ∉ st.1.map briefPair := by
      intro hmem
      rw [(hasPairB_iff st.1 t.id a.id).mpr hmem] at hc
      exact absurd rfl hc
    simp only [briefPairsNodup, List.map_append, List.map_cons, List.map_nil]
    rw [List.nodup_append]
    refine ⟨h, by simp, ?_⟩
    intro p hp hp'
    simp only [mkBriefing, briefPair, List.mem_cons, List.not_mem_nil, or_false] at hp'
    subst hp'
    exact hnotin hp

/-- the inner loop never removes a stored briefing. -/
theorem processThreats_mem_mono (gen : ThreatRow → Asset → Except Unit String)
    (uid : Option Nat) (a : Asset) (m : List ThreatRow) (ts : List ThreatRow) :
    ∀ (st : List Briefing × Nat) {b : Briefing}, b ∈ st.1 →
      b ∈ (processThreats gen uid a m ts st).1 := by
  induction ts with
  | nil => intro st b h; exact h
  | cons t ts ih =>
    intro st b h
    exact ih _ (processPair_mem_mono h)

/-- the inner loop never removes a stored pair. -/
theorem processThreats_hasPair_mono (gen : ThreatRow → Asset → Except Unit String)
    (uid : Option Nat) (a : Asset) (m : List ThreatRow) (ts : List ThreatRow) :
    ∀ (st : List Briefing × Nat) {x y : Nat}, hasPairB st.1 x y = true →
      hasPairB (processThreats gen uid a m ts st).1 x y = true := by
  induction ts with
  | nil => intro st x y h; exact h
  | cons t ts ih =>
    intro st x y h
    exact ih _ (processPair_hasPair_mono h)

/-- after the inner loop every processed pair is present. -/
theorem processThreats_covers (gen : ThreatRow → Asset → Except Unit String)
    (uid : Option Nat) (a : Asset) (m : List ThreatRow) (ts : List ThreatRow) :
    ∀ (st : List Briefing × Nat), ∀ t ∈ ts,
      hasPairB (processThreats gen uid a m ts st).1 t.id a.id = true := by
  induction ts with
  | nil => intro st t ht; simp at ht
  | cons d ds ih =>
    intro st t ht
    rcases List.mem_cons.mp ht with h | h
    · subst h
      exact processThreats_hasPair_mono gen uid a m ds _
        (processPair_pair_present gen uid a m st t)
    · exact ih _ t h

/-- the inner loop is a no-op when all its pairs are already briefed. -/
theorem processThreats_noop (gen : ThreatRow → Asset → Except Unit String)
    (uid : Option Nat) (a : Asset) (m : List ThreatRow) (ts : List ThreatRow) :
    ∀ (st : List Briefing × Nat),
      (∀ t ∈ ts, hasPairB st.1 t.id a.id = true) →
      processThreats gen uid a m ts st = st := by
  induction ts with
  | nil => intro st _; rfl
  | cons d ds ih =>
    intro st h
    have hd := processPair_skip gen uid a m st d (h d (by simp))
    show processThreats gen uid a m ds (processPair gen uid a m st d) = st
    rw [hd]
    exact ih st (fun t ht => h t (List.mem_cons_of_mem _ ht))

/-- an absent pair for a different asset id, or threat ids outside the processed list,
stays absent through the inner loop. -/
theorem processThreats_absent_preserved (gen : ThreatRow → Asset → Except Unit String)
    (uid : Option Nat) (a : Asset) (m : List ThreatRow) (ts : List ThreatRow) :
    ∀ (st : List Briefing × Nat) {x y : Nat},
      (∀ t ∈ ts, t.id ≠ x ∨ a.id ≠ y) →
      hasPairB st.1 x y = false →
      hasPairB (processThreats gen uid a m ts st).1 x y = false := by
  induction ts with
  | nil => intro st x y _ h; exact h
  | cons d ds ih =>
    intro st x y hne h
    exact ih _ (fun t ht => hne t (List.mem_cons_of_mem _ ht))
      (processPair_absent_preserved gen uid a m st d (hne d (by simp)) h)

/-- the inner loop preserves uniqueness of pairs. -/
theorem processThreats_pairsNodup (gen : ThreatRow → Asset → Except Unit String)
    (uid : Option Nat) (a : Asset) (m : List ThreatRow) (ts : List ThreatRow) :
    ∀ (st : List Briefing × Nat), briefPairsNodup st.1 →
      briefPairsNodup (processThreats gen uid a m ts st).1 := by
  induction ts with
  | nil => intro st h; exact h
  | cons d ds ih =>
    intro st h
    exact ih _ (processPair_pairsNodup h)

/-- the per-asset step, expressed through the extracted selection function. -/
theorem processAsset_eq (gen : ThreatRow → Asset → Except Unit String) (uid : Option Nat)
    (pool : List ThreatRow) (st : List Briefing × Nat) (a : Asset) :
    processAsset gen uid pool st a
      = processThreats gen uid a (pool.filter (matchesThreat a)) (selectThreats a pool) st :=
  rfl

/-- the outer loop never removes a stored briefing. -/
theorem processAssets_mem_mono (gen : ThreatRow → Asset → Except Unit String)
    (uid : Option Nat) (pool : List ThreatRow) (assets : List Asset) :
    ∀ (st : List Briefing × Nat) {b : Briefing}, b ∈ st.1 →
      b ∈ (processAssets gen uid pool assets st).1 := by
  induction assets with
  | nil => intro st b h; exact h
  | cons a rest ih =>
    intro st b h
    exact ih _ (by rw [processAsset_eq]; exact processThreats_mem_mono gen uid a _ _ st h)

/-- the outer loop never removes a stored pair. -/
theorem processAssets_hasPair_mono (gen : ThreatRow → Asset → Except Unit String)
    (uid : Option Nat) (pool : List ThreatRow) (assets : List Asset) :
    ∀ (st : List Briefing × Nat) {x y : Nat}, hasPairB st.1 x y = true →
      hasPairB (processAssets gen uid pool assets st).1 x y = true := by
  induction assets with
  | nil => intro st x y h; exact h
  | cons a rest ih =>
    intro st x y h
    exact ih _ (by rw [processAsset_eq]; exact processThreats_hasPair_mono gen uid a _ _ st h)

/-- after the outer loop every (asset, selected threat) pair is present. -/
theorem processAssets_covers (gen : ThreatRow → Asset → Except Unit String)
    (uid : Option Nat) (pool : List ThreatRow) (assets : List Asset) :
    ∀ (st : List Briefing × Nat), ∀ a ∈ assets, ∀ t ∈ selectThreats a pool,
      hasPairB (processAssets gen uid pool assets st).1 t.id a.id = true := by
  induction assets with
  | nil => intro st a ha; simp at ha
  | cons d rest ih =>
    intro st a ha t ht
    rcases List.mem_cons.mp ha with h | h
    · subst h
      apply processAssets_hasPair_mono gen uid pool rest
      rw [processAsset_eq]
      exact processThreats_covers gen uid a _ _ st t ht
    · exact ih _ a h t ht

/-- the outer loop is a no-op when every (asset, selected threat) pair is already briefed. -/
theorem processAssets_noop (gen : ThreatRow → Asset → Except Unit String)
    (uid : Option Nat) (pool : List ThreatRow) (assets : List Asset) :
    ∀ (st : List Briefing × Nat),
      (∀ a ∈ assets, ∀ t ∈ selectThreats a pool, hasPairB st.1 t.id a.id = true) →
      processAssets gen uid pool assets st = st := by
  induction assets with
  | nil => intro st _; rfl
  | cons d rest ih =>
    intro st h
    show processAssets gen uid pool rest (processAsset gen uid pool st d) = st
    rw [processAsset_eq,
      processThreats_noop gen uid d _ _ st (fun t ht => h d (by simp) t ht)]
    exact ih st (fun a ha t ht => h a (List.mem_cons_of_mem _ ha) t ht)

/-- the outer loop preserves uniqueness of pairs. -/
theorem processAssets_pairsNodup (gen : ThreatRow → Asset → Except Unit String)
    (uid : Option Nat) (pool : List ThreatRow) (assets : List Asset) :
    ∀ (st : List Briefing × Nat), briefPairsNodup st.1 →
      briefPairsNodup (processAssets gen uid pool assets st).1 := by
  induction assets with
  | nil => intro st h; exact h
  | cons a rest ih =>
    intro st h
    exact ih _ (by rw [processAsset_eq]; exact processThreats_pairsNodup gen uid a _ _ st h)

/-- the pair projection factors through the briefing key projection. -/
theorem briefPair_of_briefKey (bs : List Briefing) :
    bs.map briefPair = (bs.map briefKey).map (fun k => (k.1, k.2.1)) := by
  simp [List.map_map, Function.comp, briefPair, briefKey]

/-- the dedup check depends only on the stored pairs. -/
theorem hasPairB_congr {bs₁ bs₂ : List Briefing}
    (h : bs₁.map briefPair = bs₂.map briefPair) (x y : Nat) :
    hasPairB bs₁ x y = hasPairB bs₂ x y := by
  cases hb : hasPairB bs₂ x y
  · cases hb' : hasPairB bs₁ x y
    · rfl
    · exact absurd ((hasPairB_iff bs₂ x y).mpr (h ▸ (hasPairB_iff bs₁ x y).mp hb'))
        (by simp [hb])
  · exact (hasPairB_iff bs₁ x y).mpr (h.symm ▸ (hasPairB_iff bs₂ x y).mp hb)

/-- the key projection of an inserted briefing does not depend on the generator. -/
theorem briefKey_mkBriefing (gen : ThreatRow → Asset → Except Unit String)
    (uid : Option Nat) (a : Asset) (m : List ThreatRow) (t : ThreatRow) :
    briefKey (mkBriefing gen uid a m t)
      = (t.id, a.id, priorityStored t (decide (t ∈ m))) := rfl

/-- one pair-processing step with two generators: same keys in, same keys and count out. -/
theorem processPair_keys_eq (gen₁ gen₂ : ThreatRow → Asset → Except Unit String)
    (uid : Option Nat) (a : Asset) (m : List ThreatRow) (t : ThreatRow)
    {st₁ st₂ : List Briefing × Nat}
    (hk : st₁.1.map briefKey = st₂.1.map briefKey) (hn : st₁.2 = st₂.2) :
    (processPair gen₁ uid a m st₁ t).1.map briefKey
      = (processPair gen₂ uid a m st₂ t).1.map briefKey ∧
    (processPair gen₁ uid a m st₁ t).2 = (processPair gen₂ uid a m st₂ t).2 := by
  have hpair : st₁.1.map briefPair = st₂.1.map briefPair := by
    rw [briefPair_of_briefKey, briefPair_of_briefKey, hk]
  have hh : hasPairB st₁.1 t.id a.id = hasPairB st₂.1 t.id a.id := hasPairB_congr hpair _ _
  cases hb : hasPairB st₂.1 t.id a.id
  · have hb1 : hasPairB st₁.1 t.id a.id = false := hh.trans hb
    rw [processPair_insert gen₁ uid a m st₁ t hb1, processPair_insert gen₂ uid a m st₂ t hb]
    constructor
    · simp [List.map_append, hk, briefKey_mkBriefing]
    · simp [hn]
  · have hb1 : hasPairB st₁.1 t.id a.id = true := hh.trans hb
    rw [processPair_skip gen₁ uid a m st₁ t hb1, processPair_skip gen₂ uid a m st₂ t hb]
    exact ⟨hk, hn⟩

/-- the inner loop with two generators: same keys in, same keys and count out. -/
theorem processThreats_keys_eq (gen₁ gen₂ : ThreatRow → Asset → Except Unit String)
    (uid : Option Nat) (a : Asset) (m : List ThreatRow) (ts : List ThreatRow) :
    ∀ {st₁ st₂ : List Briefing × Nat},
      st₁.1.map briefKey = st₂.1.map briefKey → st₁.2 = st₂.2 →
      (processThreats gen₁ uid a m ts st₁).1.map briefKey
        = (processThreats gen₂ uid a m ts st₂).1.map briefKey ∧
      (processThreats gen₁ uid a m ts st₁).2 = (processThreats gen₂ uid a m ts st₂).2 := by
  induction ts with
  | nil => intro st₁ st₂ hk hn; exact ⟨hk, hn⟩
  | cons t ts ih =>
    intro st₁ st₂ hk hn
    have hstep := processPair_keys_eq gen₁ gen₂ uid a m t hk hn
    exact ih hstep.1 hstep.2

/-- the outer loop with two generators: same keys in, same keys and count out. -/
theorem processAssets_keys_eq (gen₁ gen₂ : ThreatRow → Asset → Except Unit String)
    (uid : Option Nat) (pool : List ThreatRow) (assets : List Asset) :
    ∀ {st₁ st₂ : List Briefing × Nat},
      st₁.1.map briefKey = st₂.1.map briefKey → st₁.2 = st₂.2 →
      (processAssets gen₁ uid pool assets st₁).1.map briefKey
        = (processAssets gen₂ uid pool assets st₂).1.map briefKey ∧
      (processAssets gen₁ uid pool assets st₁).2 = (processAssets gen₂ uid pool assets st₂).2 := by
  induction assets with
  | nil => intro st₁ st₂ hk hn; exact ⟨hk, hn⟩
  | cons a rest ih =>
    intro st₁ st₂ hk hn
    have hstep := processThreats_keys_eq gen₁ gen₂ uid a
      (pool.filter (matchesThreat a)) (selectThreats a pool) hk hn
    rw [show processAssets gen₁ uid pool (a :: rest) st₁
          = processAssets gen₁ uid pool rest (processAsset gen₁ uid pool st₁ a) from rfl,
        show processAssets gen₂ uid pool (a :: rest) st₂
          = processAssets gen₂ uid pool rest (processAsset gen₂ uid pool st₂ a) from rfl,
        processAsset_eq, processAsset_eq]
    exact ih hstep.1 hstep.2

/-- the selection is always a sublist of the pool. -/
theorem selectThreats_sublist (a : Asset) (pool : List ThreatRow) :
    List.Sublist (selectThreats a pool) pool := by
  simp only [selectThreats]
  split_ifs with h
  · exact ((pool.filter (matchesThreat a)).take_sublist 3).trans (List.filter_sublist pool)
  · exact pool.take_sublist 2

/-- when the generator fails on a not-yet-briefed pair that the inner loop processes,
the loop still inserts a briefing for it carrying the deterministic fallback content. -/
theorem processThreats_fallback (gen : ThreatRow → Asset → Except Unit String)
    (uid : Option Nat) (a : Asset) (m : List ThreatRow) :
    ∀ (ts : List ThreatRow) (st : List Briefing × Nat) (t : ThreatRow),
      (ts.map ThreatRow.id).Nodup → t ∈ ts → gen t a = .error () →
      hasPairB st.1 t.id a.id = false →
      ∃ b ∈ (processThreats gen uid a m ts st).1,
        b.threat_id = t.id ∧ b.asset_id = a.id ∧
        b.summary = (genFallback t a).1 ∧ b.remediation = (genFallback t a).2.1 ∧
        b.business_impact = (genFallback t a).2.2 := by
  intro ts
  induction ts with
  | nil => intro st t _ ht; simp at ht
  | cons d ds ih =>
    intro st t hnod ht herr habs
    rcases List.mem_cons.mp ht with h | h
    · subst h
      have hins := processPair_insert gen uid a m st t habs
      refine ⟨mkBriefing gen uid a m t, ?_, rfl, rfl, ?_, ?_, ?_⟩
      · show mkBriefing gen uid a m t
            ∈ (processThreats gen uid a m ds (processPair gen uid a m st t)).1
        apply processThreats_mem_mono
        rw [hins]
        simp
      · simp [mkBriefing, herr]
      · simp [mkBriefing, herr]
      · simp [mkBriefing, herr]
    · have hnod' : (ds.map ThreatRow.id).Nodup := by
        simp only [List.map_cons, List.nodup_cons] at hnod
        exact hnod.2
      have hdne : d.id ≠ t.id := by
        intro he
        have hmem : d.id ∈ ds.map ThreatRow.id := he ▸ List.mem_map_of_mem _ h
        simp only [List.map_cons, List.nodup_cons] at hnod
        exact hnod.1 hmem
      have habs' := processPair_absent_preserved gen uid a m st d (Or.inl hdne) habs
      exact ih _ t hnod' h herr habs'

/-- when the generator fails on a not-yet-briefed pair of the batch, the batch still
inserts a briefing for it with the deterministic fallback content. -/
theorem processAssets_fallback (gen : ThreatRow → Asset → Except Unit String)
    (uid : Option Nat) (pool : List ThreatRow) :
    ∀ (assets : List Asset) (st : List Briefing × Nat) (a : Asset) (t : ThreatRow),
      (assets.map Asset.id).Nodup → (pool.map ThreatRow.id).Nodup →
      a ∈ assets → t ∈ selectThreats a pool → gen t a = .error () →
      hasPairB st.1 t.id a.id = false →
      ∃ b ∈ (processAssets gen uid pool assets st).1,
        b.threat_id = t.id ∧ b.asset_id = a.id ∧
        b.summary = (genFallback t a).1 ∧ b.remediation = (genFallback t a).2.1 ∧
        b.business_impact = (genFallback t a).2.2 := by
  intro assets
  induction assets with
  | nil => intro st a t _ _ ha; simp at ha
  | cons d rest ih =>
    intro st a t hanod hpnod ha ht herr habs
    rcases List.mem_cons.mp ha with h | h
    · subst h
      have hselnod : ((selectThreats a pool).map ThreatRow.id).Nodup :=
        List.Nodup.sublist ((selectThreats_sublist a pool).map _) hpnod
      obtain ⟨b, hb, hprops⟩ := processThreats_fallback gen uid a
        (pool.filter (matchesThreat a)) (selectThreats a pool) st t hselnod ht herr habs
      refine ⟨b, ?_, hprops⟩
      show b ∈ (processAssets gen uid pool rest (processAsset gen uid pool st a)).1
      apply processAssets_mem_mono
      rw [processAsset_eq]
      exact hb
    · have hrestnod : (rest.map Asset.id).Nodup := by
        simp only [List.map_cons, List.nodup_cons] at hanod
        exact hanod.2
      have hdne : d.id ≠ a.id := by
        intro he
        have hmem : d.id ∈ rest.map Asset.id := he ▸ List.mem_map_of_mem _ h
        simp only [List.map_cons, List.nodup_cons] at hanod
        exact hanod.1 hmem
      have habs' : hasPairB (processAsset gen uid pool st d).1 t.id a.id = false := by
        rw [processAsset_eq]
        exact processThreats_absent_preserved gen uid d _ _ st
          (fun t' _ => Or.inr hdne) habs
      exact ih _ a t hrestnod hpnod h ht herr habs'

/-- C9: briefing generation preserves the at-most-one-briefing-per-(threat, asset) pair
invariant: an already-briefed pair is skipped with the state untouched, pair uniqueness
of the store is preserved, and a second sequential run over the same assets and pool
generates 0 briefings and leaves the store exactly as the first run left it. -/
theorem briefing_dedup_spec :
    (∀ (gen : ThreatRow → Asset → Except Unit String) (uid : Option Nat) (a : Asset)
        (m : List ThreatRow) (bs : List Briefing) (n : Nat) (t : ThreatRow),
      hasPairB bs t.id a.id = true → processPair gen uid a m (bs, n) t = (bs, n)) ∧
    (∀ (gen : ThreatRow → Asset → Except Unit String) (uid : Option Nat)
        (assets : List Asset) (pool : List ThreatRow) (bs : List Briefing),
      briefPairsNodup bs → briefPairsNodup (runGenerate gen uid assets pool bs).1) ∧
    (∀ (gen₁ gen₂ : ThreatRow → Asset → Except Unit String) (uid₁ uid₂ : Option Nat)
        (assets : List Asset) (pool : List ThreatRow) (bs : List Briefing),
      runGenerate gen₂ uid₂ assets pool (runGenerate gen₁ uid₁ assets pool bs).1
        = ((runGenerate gen₁ uid₁ assets pool bs).1, 0)) := by
  refine ⟨?_, ?_, ?_⟩
  · intro gen uid a m bs n t h
    exact processPair_skip gen uid a m (bs, n) t h
  · intro gen uid assets pool bs h
    exact processAssets_pairsNodup gen uid pool assets (bs, 0) h
  · intro gen₁ gen₂ uid₁ uid₂ assets pool bs
    apply processAssets_noop
    intro a ha t ht
    exact processAssets_covers gen₁ uid₁ pool assets (bs, 0) a ha t ht

/-- witness for C9: a pair covered by an existing briefing row is skipped unchanged. -/
theorem briefing_dedup_spec_witness :
    processPair genErr none assetApache [] ([briefingExisting], 0) threatApacheVendor
      = ([briefingExisting], 0) :=
  briefing_dedup_spec.1 genErr none assetApache [] [briefingExisting] 0 threatApacheVendor
    (by decide)

/-- C8: a failing text-generation call never surfaces as a batch error: which pairs get
briefed, at which priority, and how many are generated is independent of the generator's
outcomes, and a failing pair still receives a persisted briefing whose summary,
remediation and business impact are the deterministic local templates. -/
theorem generation_fallback_spec :
    (∀ (gen₁ gen₂ : ThreatRow → Asset → Except Unit String) (uid : Option Nat)
        (assets : List Asset) (pool : List ThreatRow) (bs : List Briefing),
      (runGenerate gen₁ uid assets pool bs).1.map briefKey
        = (runGenerate gen₂ uid assets pool bs).1.map briefKey ∧
      (runGenerate gen₁ uid assets pool bs).2 = (runGenerate gen₂ uid assets pool bs).2) ∧
    (∀ (gen : ThreatRow → Asset → Except Unit String) (uid : Option Nat)
        (assets : List Asset) (pool : List ThreatRow) (bs : List Briefing)
        (a : Asset) (t : ThreatRow),
      (assets.map Asset.id).Nodup → (pool.map ThreatRow.id).Nodup →
      a ∈ assets → t ∈ selectThreats a pool → gen t a = .error () →
      hasPairB bs t.id a.id = false →
      ∃ b ∈ (runGenerate gen uid assets pool bs).1,
        b.threat_id = t.id ∧ b.asset_id = a.id ∧
        b.summary = (genFallback t a).1 ∧ b.remediation = (genFallback t a).2.1 ∧
        b.business_impact = (genFallback t a).2.2) := by
  constructor
  · intro gen₁ gen₂ uid assets pool bs
    exact processAssets_keys_eq gen₁ gen₂ uid pool assets rfl rfl
  · intro gen uid assets pool bs a t hanod hpnod ha ht herr habs
    exact processAssets_fallback gen uid pool assets (bs, 0) a t hanod hpnod ha ht herr habs

/-- witness for C8: with an always-failing generator, the single Apache pair still gets
a briefing with the fallback texts. -/
theorem generation_fallback_spec_witness :
    ∃ b ∈ (runGenerate genErr none [assetApache] [threatApacheVendor] []).1,
      b.threat_id = threatApacheVendor.id ∧ b.asset_id = assetApache.id ∧
      b.summary = (genFallback threatApacheVendor assetApache).1 ∧
      b.remediation = (genFallback threatApacheVendor assetApache).2.1 ∧
      b.business_impact = (genFallback threatApacheVendor assetApache).2.2 :=
  generation_fallback_spec.2 genErr none [assetApache] [threatApacheVendor] []
    assetApache threatApacheVendor (by decide) (by decide) (by decide) (by decide)
    rfl (by decide)

end ThreatSynth
